import Mathlib

/-!
Verification development for the process supervisor in start.go.

The file shallowly embeds the data model and operations of the source:
pure parsing code becomes Lean functions over strings, Go maps become
association lists with overwrite-on-insert semantics, and the
concurrent coordination goroutines become (a) per-replica action traces
driven by explicit race outcomes and (b) a small-step transition system
over a global state, whose reachable states satisfy the shutdown
invariants claimed by the specification.
-/

namespace ForegoStart

/-- Model of a Go map from strings: an association list where inserting an
existing key overwrites its value in place and a fresh key is appended. -/
def mapInsert {α : Type} (m : List (String × α)) (k : String) (v : α) :
    List (String × α) :=
  if m.any (fun p => p.1 == k) then
    m.map (fun p => if p.1 == k then (k, v) else p)
  else m ++ [(k, v)]

/-- Model of a Go map lookup: the value stored at key k, if present. -/
def mapLookup {α : Type} (m : List (String × α)) (k : String) : Option α :=
  match m.find? (fun p => p.1 == k) with
  | some p => some p.2
  | none => none

/-- Whitespace predicate of Go strings.TrimSpace: the full unicode.IsSpace
character set, that is the White_Space ranges 0009-000D, 0020, 0085, 00A0,
1680, 2000-200A, 2028-2029, 202F, 205F and 3000. -/
def goIsSpace (c : Char) : Bool :=
  (9 ≤ c.toNat ∧ c.toNat ≤ 13) ∨ c.toNat = 32 ∨ c.toNat = 133 ∨
    c.toNat = 160 ∨ c.toNat = 5760 ∨ (8192 ≤ c.toNat ∧ c.toNat ≤ 8202) ∨
    c.toNat = 8232 ∨ c.toNat = 8233 ∨ c.toNat = 8239 ∨ c.toNat = 8287 ∨
    c.toNat = 12288

/-- Character-list core of Go strings.Split with a one-character separator:
splits around every occurrence of the separator, keeping empty fields. -/
def splitCharList (sep : Char) : List Char → List (List Char)
  | [] => [[]]
  | c :: cs =>
    match splitCharList sep cs with
    | [] => if c = sep then [[], []] else [[c]]
    | g :: gs => if c = sep then [] :: g :: gs else (c :: g) :: gs

/-- Go strings.Split(s, sep) for a one-character separator sep. -/
def goSplit (sep : Char) (s : String) : List String :=
  (splitCharList sep s.toList).map (fun g => String.mk g)

/-- Go strings.TrimSpace: remove leading and trailing whitespace. -/
def goTrimSpace (s : String) : String :=
  String.mk (((s.toList.dropWhile goIsSpace).reverse.dropWhile goIsSpace).reverse)

/-- Decimal value of a nonempty, all-digit character list; none otherwise.
Models the digit-accumulation loop of strconv.ParseUint in base 10. -/
def decVal : List Char → Option Nat
  | [] => none
  | cs =>
    if cs.all (fun c => c.isDigit) then
      some (cs.foldl (fun a c => a * 10 + (c.toNat - 48)) 0)
    else none

/-- Syntax phase of strconv.ParseInt with base 10: an optional sign followed
by a nonempty run of decimal digits; no range restriction yet. -/
def goParseIntBase10 (s : String) : Option Int :=
  match s.toList with
  | [] => none
  | c :: rest =>
    if c = '-' then (decVal rest).map (fun n => -(n : Int))
    else if c = '+' then (decVal rest).map (fun n => (n : Int))
    else (decVal (c :: rest)).map (fun n => (n : Int))

/-- strconv.ParseInt(v, 10, 16) as called at start.go line 62: parse a
base-10 integer and reject any value outside the signed 16-bit range. -/
def goParseInt16 (s : String) : Option Int :=
  match goParseIntBase10 s with
  | none => none
  | some i => if i < -32768 ∨ 32767 < i then none else some i

/-- Body of the part loop of parseConcurrency (start.go lines 52-67): a
part with no separator is rejected, the first two fields around the
separator are trimmed, an empty name or value is rejected, and the value
goes through strconv.ParseInt with base 10 and bit size 16. -/
def parsePart (part : String) : Except String (String × Int) :=
  match goSplit ('=') part with
  | [] => Except.error ("Parsing concurency")
  | [_] => Except.error ("Parsing concurency")
  | nv0 :: nv1 :: _ =>
    if goTrimSpace nv0 = "" ∨ goTrimSpace nv1 = "" then
      Except.error ("Parsing concurency")
    else
      match goParseInt16 (goTrimSpace nv1) with
      | none => Except.error ("invalid syntax")
      | some numProcs => Except.ok (goTrimSpace nv0, numProcs)

/-- Loop of parseConcurrency (start.go lines 51-68): process each
comma-separated part, accumulating a name-to-count map, stopping with an
error at the first malformed part. -/
def parseConcurrencyParts :
    List String → List (String × Int) → Except String (List (String × Int))
  | [], acc => Except.ok acc
  | part :: rest, acc =>
    match parsePart part with
    | Except.error e => Except.error e
    | Except.ok (n, numProcs) => parseConcurrencyParts rest (mapInsert acc n numProcs)

/-- parseConcurrency (start.go lines 44-70): empty or all-whitespace input
yields the empty map; otherwise the input is split on commas and each part
must be name=value with a nonempty name, a nonempty value, and a value
accepted by strconv.ParseInt with base 10 and bit size 16. -/
def parseConcurrency (value : String) : Except String (List (String × Int)) :=
  if goTrimSpace value = "" then Except.ok []
  else parseConcurrencyParts (goSplit (',') value) []

/-- A comma-separated part of the concurrency flag is malformed when it has
no separator, an empty trimmed name, an empty trimmed value, or a value
that is not a base-10 integer. -/
def BadPart (part : String) : Prop :=
  match goSplit ('=') part with
  | [] => True
  | [_] => True
  | nv0 :: nv1 :: _ =>
    goTrimSpace nv0 = "" ∨ goTrimSpace nv1 = "" ∨
      goParseIntBase10 (goTrimSpace nv1) = none

/-- Grace period before escalation, in seconds (start.go line 15:
shutdownGraceTime = 3 * time.Second). -/
def shutdownGraceTimeSeconds : Nat := 3

/-- One line of the Procfile: a named command template (spec section 3,
produced by the external source reader). -/
structure ProcfileEntry where
  name : String
  command : String
deriving DecidableEq

/-- Observable metadata of one launched replica: display name, assigned
port, child environment, and the start announcement line. -/
structure Replica where
  procName : String
  port : Int
  env : List (String × String)
  announce : String
deriving DecidableEq

/-- Pure part of Forego.startProcess (start.go lines 105-116): derive the
port from the template index, the display name from the template name and
the one-based replica number, synthesize PORT in the child environment, and
build the system announcement line. -/
def startProcessMeta (flagPort : Int) (idx procNum : Nat) (proc : ProcfileEntry)
    (env : List (String × String)) : Replica :=
  let port : Int := flagPort + (idx : Int) * 100
  let procName := proc.name ++ "." ++ toString (procNum + 1)
  { procName := procName
    port := port
    env := mapInsert env ("PORT") (toString port)
    announce := "starting " ++ procName ++ " on port " ++ toString port }

/-- Replicas launched for one Procfile entry (inner loop of runStart,
start.go lines 207-211): one per replica index below numProcs, kept only
when no filter is set or the filter names this template. -/
def replicasForEntry (flagPort : Int) (env : List (String × String))
    (singleton : String) (idx : Nat) (proc : ProcfileEntry) (numProcs : Nat) :
    List Replica :=
  (List.range numProcs).filterMap (fun i =>
    if singleton = "" ∨ singleton = proc.name then
      some (startProcessMeta flagPort idx i proc env)
    else none)

/-- Outer loop of runStart (start.go lines 202-212): walk the Procfile
entries with their indices, the replica count for each taken from the
concurrency map when present and 1 otherwise; a negative count runs the
inner loop zero times. -/
def runStartLoop (flagPort : Int) (concurrency : List (String × Int))
    (env : List (String × String)) (singleton : String) :
    Nat → List ProcfileEntry → List Replica
  | _, [] => []
  | idx, proc :: rest =>
    let numProcs : Int :=
      match mapLookup concurrency proc.name with
      | some value => value
      | none => 1
    replicasForEntry flagPort env singleton idx proc numProcs.toNat ++
      runStartLoop flagPort concurrency env singleton (idx + 1) rest

/-- Launch-phase of runStart (start.go lines 168-212) as a function from
configuration to the launched replica list: a concurrency parse failure is
fatal before any process starts, and an unknown filter name is fatal
(the no-such-process report, modelled from the spec since the output
router is outside this repository slice). -/
def runStart (flagPort : Int) (flagConcurrency : String)
    (entries : List ProcfileEntry) (env : List (String × String))
    (args : List String) : Except String (List Replica) :=
  match parseConcurrency flagConcurrency with
  | Except.error e => Except.error e
  | Except.ok concurrency =>
    let singleton : String := match args with | [] => "" | a :: _ => a
    if singleton ≠ "" ∧ ¬ entries.any (fun p => p.name == singleton) then
      Except.error ("no such process: " ++ singleton)
    else
      Except.ok (runStartLoop flagPort concurrency env singleton 0 entries)

/-- Replica count requested for one template: the concurrency entry when
present, else 1; clamped at zero the way the Go counting loop is. -/
def effectiveNumProcs (concurrency : List (String × Int)) (name : String) : Nat :=
  (match mapLookup concurrency name with
   | some value => value
   | none => 1).toNat

/-- Total number of replicas a configuration requests across all templates. -/
def requestedTotal (entries : List ProcfileEntry)
    (concurrency : List (String × Int)) : Nat :=
  (entries.map (fun proc => effectiveNumProcs concurrency proc.name)).sum

/-- Shared shutdown state of the Forego struct (start.go lines 72-78):
whether the sync.Once has fired, and whether each of the two barrier
channels has been closed. -/
structure ForegoState where
  shutdownDone : Bool
  teardown : Bool
  teardownNow : Bool
deriving DecidableEq

/-- State of a fresh Forego as built in runStart (start.go lines 187-190):
both channels open, the sync.Once not yet fired. -/
def foregoInit : ForegoState :=
  { shutdownDone := false, teardown := false, teardownNow := false }

/-- Forego.SignalShutdown (start.go lines 80-82): run the close of the
graceful barrier through the sync.Once, so only the first call closes it. -/
def SignalShutdown (f : ForegoState) : ForegoState :=
  if f.shutdownDone then f
  else { f with shutdownDone := true, teardown := true }

/-- Local state of monitorInterrupt (start.go lines 84-103): the shared
Forego state plus the first flag and the local sync.Once guarding the
urgent barrier. -/
structure MonitorState where
  forego : ForegoState
  first : Bool
  onceDone : Bool
deriving DecidableEq

/-- Monitor state at entry to the interrupt loop. -/
def monitorInit (f : ForegoState) : MonitorState :=
  { forego := f, first := true, onceDone := false }

/-- Effect of one os.Interrupt delivery in monitorInterrupt (start.go lines
91-101): on any interrupt after the first, close the urgent barrier through
the local sync.Once; always call SignalShutdown; clear the first flag. -/
def handleInterrupt (m : MonitorState) : MonitorState :=
  let m1 :=
    if m.first = false ∧ m.onceDone = false then
      { m with forego := { m.forego with teardownNow := true }, onceDone := true }
    else m
  { m1 with forego := SignalShutdown m1.forego, first := false }

/-- Which of the three waited events fires first once a coordinator is in
the graceful-stop select (start.go lines 155-163): the grace timer, the
urgent barrier, or the natural exit of the child. -/
inductive GraceEvent
  | timer
  | teardownNow
  | childExit
deriving DecidableEq

/-- Outcome of the first select of a coordination goroutine (start.go lines
133-164): either the child exits before the graceful barrier trips, or the
barrier trips first, in which case a GraceEvent settles the second select. -/
inductive Outcome
  | childExitFirst
  | teardownFirst (g : GraceEvent)
deriving DecidableEq

/-- Observable action of a coordination goroutine. reapChild stands for the
deferred receive on the finished channel, which is closed only after
ps.Wait has returned. -/
inductive Action
  | start (procName : String) (port : Int)
  | signalShutdown
  | sendSigTerm (procName : String)
  | forceKill (procName : String)
  | reapChild
deriving DecidableEq

/-- Serialized action trace of the coordination goroutine chain that
Forego.startProcess spawns for one replica (start.go lines 116-165), driven
by the list of race outcomes, one per process incarnation. An empty outcome
list is an incarnation still blocked in its first select. On a natural exit
with restart enabled the recursive startProcess call runs before the old
goroutine reaps its own child, so the relaunched trace of the remaining
outcomes is serialized before that reap. -/
def startProcessTrace (flagRestart osHaveSigTerm : Bool) (procName : String)
    (port : Int) : List Outcome → List Action
  | [] => [Action.start procName port]
  | Outcome.childExitFirst :: rest =>
    if flagRestart then
      Action.start procName port ::
        (startProcessTrace flagRestart osHaveSigTerm procName port rest ++
          [Action.reapChild])
    else [Action.start procName port, Action.signalShutdown, Action.reapChild]
  | Outcome.teardownFirst g :: _ =>
    if osHaveSigTerm then
      Action.start procName port :: Action.sendSigTerm procName ::
        ((match g with
          | GraceEvent.childExit => []
          | _ => [Action.forceKill procName]) ++ [Action.reapChild])
    else [Action.start procName port, Action.forceKill procName, Action.reapChild]

/-- Number of forced terminations in a trace. -/
def countForceKills (trace : List Action) : Nat :=
  (trace.filter (fun a => match a with | Action.forceKill _ => true | _ => false)).length

/-- Phase of one coordination goroutine: still in its select logic, blocked
on the deferred receive of the finished channel, or returned (its
WaitGroup.Done has run). -/
inductive CPhase
  | working
  | waitingReap
  | done
deriving DecidableEq

/-- Supervision-relevant state of one coordination goroutine together with
its child: the goroutine phase and whether ps.Wait has returned for the
child (the finished channel is closed). -/
structure Coord where
  phase : CPhase
  childExited : Bool
deriving DecidableEq

/-- Global state of the supervision engine: the graceful barrier, whether
runStart has passed its final WaitGroup.Wait, and one Coord per spawned
coordination goroutine. -/
structure Sys where
  teardown : Bool
  entryDone : Bool
  coords : List Coord

/-- State right after fan-out: n coordination goroutines registered with
the WaitGroup, each in its select with a live child; barrier open; runStart
blocked at the receive on the teardown channel. -/
def Sys.start (n : Nat) : Sys :=
  { teardown := false, entryDone := false,
    coords := List.replicate n { phase := CPhase.working, childExited := false } }

/-- Interleaving steps of the supervision engine (start.go lines 118-165
and 214-217). childExit: ps.Wait returns and the finished channel closes.
finishSelect: a goroutine falls through its select logic to the deferred
receive. restartSpawn: the restart branch spawns a fresh coordination
goroutine for the same replica before the old one reaps. reap: the deferred
receive returns once the child is reaped, and WaitGroup.Done runs. trip:
the graceful barrier closes (SignalShutdown from any caller). ret: the
entry point returns, which requires the teardown barrier closed and every
registered goroutine done, per WaitGroup semantics. -/
inductive Step : Sys → Sys → Prop
  | childExit (s : Sys) (i : Nat) (h : i < s.coords.length) :
      Step s { s with
        coords := s.coords.set i { phase := (s.coords.get ⟨i, h⟩).phase, childExited := true } }
  | finishSelect (s : Sys) (i : Nat) (h : i < s.coords.length)
      (hw : (s.coords.get ⟨i, h⟩).phase = CPhase.working) :
      Step s { s with
        coords := s.coords.set i { phase := CPhase.waitingReap,
                                   childExited := (s.coords.get ⟨i, h⟩).childExited } }
  | restartSpawn (s : Sys) (i : Nat) (h : i < s.coords.length)
      (hw : (s.coords.get ⟨i, h⟩).phase = CPhase.working)
      (hc : (s.coords.get ⟨i, h⟩).childExited = true) :
      Step s { s with
        coords := s.coords.set i { phase := CPhase.waitingReap, childExited := true } ++
          [{ phase := CPhase.working, childExited := false }] }
  | reap (s : Sys) (i : Nat) (h : i < s.coords.length)
      (hw : (s.coords.get ⟨i, h⟩).phase = CPhase.waitingReap)
      (hc : (s.coords.get ⟨i, h⟩).childExited = true) :
      Step s { s with
        coords := s.coords.set i { phase := CPhase.done, childExited := true } }
  | trip (s : Sys) :
      Step s { s with teardown := true }
  | ret (s : Sys) (ht : s.teardown = true)
      (hall : ∀ c ∈ s.coords, c.phase = CPhase.done) :
      Step s { s with entryDone := true }

/-- States reachable from the post-fan-out state with n goroutines. -/
inductive Reach (n : Nat) : Sys → Prop
  | start : Reach n (Sys.start n)
  | step {s s' : Sys} : Reach n s → Step s s' → Reach n s'

/-- Safety invariant of the supervision engine: a done goroutine has reaped
its child, and once the entry point has returned every registered goroutine
is done. -/
def SysInv (s : Sys) : Prop :=
  (∀ c ∈ s.coords, c.phase = CPhase.done → c.childExited = true) ∧
  (s.entryDone = true → ∀ c ∈ s.coords, c.phase = CPhase.done)

lemma sysInv_start (n : Nat) : SysInv (Sys.start n) := by
  constructor
  · intro c hc hd
    have := List.eq_of_mem_replicate hc
    subst this
    simp [CPhase] at hd
  · intro h
    simp [Sys.start] at h

lemma sysInv_step {s s' : Sys} (hs : SysInv s) (hstep : Step s s') : SysInv s' := by
  obtain ⟨h1, h2⟩ := hs
  cases hstep with
  | childExit i h =>
    constructor
    · intro c hc _
      rcases List.mem_or_eq_of_mem_set hc with hm | he
      · exact h1 c hm (by exact (by assumption))
      · simp [he]
    · intro hd c hc
      rcases List.mem_or_eq_of_mem_set hc with hm | he
      · exact h2 hd c hm
      · have hmem := List.get_mem s.coords i h
        have := h2 hd _ hmem
        subst he
        simpa using this
  | finishSelect i h hw =>
    constructor
    · intro c hc hd
      rcases List.mem_or_eq_of_mem_set hc with hm | he
      · exact h1 c hm hd
      · subst he
        simp at hd
    · intro hd
      exfalso
      have hmem := List.get_mem s.coords i h
      have := h2 hd _ hmem
      rw [hw] at this
      exact absurd this (by simp)
  | restartSpawn i h hw hc =>
    constructor
    · intro c hcm hd
      rcases List.mem_append.mp hcm with hm | he
      · rcases List.mem_or_eq_of_mem_set hm with hm2 | he2
        · exact h1 c hm2 hd
        · subst he2; rfl
      · simp at he
        subst he
        simp at hd
    · intro hd
      exfalso
      have hmem := List.get_mem s.coords i h
      have := h2 hd _ hmem
      rw [hw] at this
      exact absurd this (by simp)
  | reap i h hw hc =>
    constructor
    · intro c hcm hd
      rcases List.mem_or_eq_of_mem_set hcm with hm | he
      · exact h1 c hm hd
      · subst he; rfl
    · intro hd c hcm
      rcases List.mem_or_eq_of_mem_set hcm with hm | he
      · exact h2 hd c hm
      · subst he; rfl
  | trip =>
    exact ⟨h1, h2⟩
  | ret ht hall =>
    exact ⟨h1, fun _ => hall⟩

lemma sysInv_reach {n : Nat} {s : Sys} (hr : Reach n s) : SysInv s := by
  induction hr with
  | start => exact sysInv_start n
  | step _ hstep ih => exact sysInv_step ih hstep

lemma bool_eq_false {b : Bool} (h : ¬ b = true) : b = false := by
  cases b
  · rfl
  · exact absurd rfl h

lemma find?_append_key {α : Type} (m : List (String × α)) (k : String) (v : α)
    (h : m.any (fun p => p.1 == k) = false) :
    (m ++ [(k, v)]).find? (fun p => p.1 == k) = some (k, v) := by
  induction m with
  | nil => simp
  | cons p t ih =>
    rw [List.any_cons] at h
    have hp : (p.1 == k) = false := by
      cases hpk : (p.1 == k)
      · rfl
      · rw [hpk] at h; simp at h
    have ht : t.any (fun p => p.1 == k) = false := by
      rw [hp] at h; simpa using h
    rw [List.cons_append, List.find?_cons, hp]
    exact ih ht

lemma find?_map_overwrite {α : Type} (m : List (String × α)) (k : String) (v : α)
    (h : m.any (fun p => p.1 == k) = true) :
    (m.map (fun p => if p.1 == k then (k, v) else p)).find?
      (fun p => p.1 == k) = some (k, v) := by
  induction m with
  | nil => simp at h
  | cons p t ih =>
    rw [List.map_cons]
    by_cases hp : (p.1 == k) = true
    · rw [if_pos hp]
      exact List.find?_cons_of_pos _ (by simp)
    · have hp' : (p.1 == k) = false := bool_eq_false hp
      rw [List.any_cons, hp'] at h
      have ht : t.any (fun p => p.1 == k) = true := by simpa using h
      rw [if_neg hp]
      have hskip : List.find? (fun q => q.1 == k)
          (p :: List.map (fun q => if (q.1 == k) = true then (k, v) else q) t) =
          List.find? (fun q => q.1 == k)
            (List.map (fun q => if (q.1 == k) = true then (k, v) else q) t) :=
        List.find?_cons_of_neg _ hp
      rw [hskip]
      exact ih ht

lemma mapLookup_mapInsert_self {α : Type} (m : List (String × α)) (k : String)
    (v : α) : mapLookup (mapInsert m k v) k = some v := by
  unfold mapLookup mapInsert
  by_cases hany : m.any (fun p => p.1 == k) = true
  · rw [if_pos hany, find?_map_overwrite m k v hany]
  · have hf : m.any (fun p => p.1 == k) = false := bool_eq_false hany
    rw [if_neg hany, find?_append_key m k v hf]

lemma mem_mapInsert {α : Type} {m : List (String × α)} {k : String} {v : α}
    {kv : String × α} (h : kv ∈ mapInsert m k v) : kv ∈ m ∨ kv.2 = v := by
  unfold mapInsert at h
  by_cases hany : m.any (fun p => p.1 == k) = true
  · rw [if_pos hany] at h
    obtain ⟨p, hp, he⟩ := List.mem_map.mp h
    by_cases hpk : (p.1 == k) = true
    · right
      rw [if_pos hpk] at he
      rw [← he]
    · left
      rw [if_neg hpk] at he
      rwa [← he]
  · rw [if_neg hany] at h
    rcases List.mem_append.mp h with hm | hs
    · left; exact hm
    · right
      simp at hs
      rw [hs]

lemma goParseInt16_some_range {s : String} {i : Int}
    (h : goParseInt16 s = some i) : -32768 ≤ i ∧ i ≤ 32767 := by
  unfold goParseInt16 at h
  split at h
  · exact Option.noConfusion h
  · split at h
    · exact Option.noConfusion h
    · injection h with h'
      subst h'
      rename_i hr
      push_neg at hr
      omega

lemma goParseInt16_of_base10_none {s : String}
    (h : goParseIntBase10 s = none) : goParseInt16 s = none := by
  unfold goParseInt16
  rw [h]

lemma parsePart_ok_range {part : String} {n : String} {i : Int}
    (h : parsePart part = Except.ok (n, i)) : -32768 ≤ i ∧ i ≤ 32767 := by
  unfold parsePart at h
  split at h
  · exact Except.noConfusion h
  · exact Except.noConfusion h
  · split at h
    · exact Except.noConfusion h
    · split at h
      · exact Except.noConfusion h
      · rename_i numProcs hpi
        injection h with h'
        have h2 : numProcs = i := congrArg Prod.snd h'
        subst h2
        exact goParseInt16_some_range hpi

lemma parsePart_error_of_bad {part : String} (hbad : BadPart part) :
    ∃ e, parsePart part = Except.error e := by
  unfold parsePart
  unfold BadPart at hbad
  split
  · exact ⟨_, rfl⟩
  · exact ⟨_, rfl⟩
  · rename_i nv0 nv1 tl hsp
    rw [hsp] at hbad
    have hbad' : goTrimSpace nv0 = "" ∨ goTrimSpace nv1 = "" ∨
        goParseIntBase10 (goTrimSpace nv1) = none := hbad
    split
    · exact ⟨_, rfl⟩
    · rename_i hnv
      split
      · exact ⟨_, rfl⟩
      · rename_i numProcs hpi
        exfalso
        rcases hbad' with h0 | h1 | h2
        · exact hnv (Or.inl h0)
        · exact hnv (Or.inr h1)
        · rw [goParseInt16_of_base10_none h2] at hpi
          exact Option.noConfusion hpi

lemma parseConcurrencyParts_ok_values :
    ∀ (parts : List String) (acc m : List (String × Int)),
      (∀ kv ∈ acc, -32768 ≤ kv.2 ∧ kv.2 ≤ 32767) →
      parseConcurrencyParts parts acc = Except.ok m →
      ∀ kv ∈ m, -32768 ≤ kv.2 ∧ kv.2 ≤ 32767 := by
  intro parts
  induction parts with
  | nil =>
    intro acc m hacc h
    simp only [parseConcurrencyParts] at h
    injection h with h'
    subst h'
    exact hacc
  | cons part rest ih =>
    intro acc m hacc h
    simp only [parseConcurrencyParts] at h
    split at h
    · exact Except.noConfusion h
    · rename_i pr n numProcs hpp
      refine ih (mapInsert acc n numProcs) m ?_ h
      intro kv hkv
      rcases mem_mapInsert hkv with hm | hv
      · exact hacc kv hm
      · rw [hv]
        exact parsePart_ok_range hpp

lemma parseConcurrency_ok_values {value : String} {m : List (String × Int)}
    (h : parseConcurrency value = Except.ok m) :
    ∀ kv ∈ m, -32768 ≤ kv.2 ∧ kv.2 ≤ 32767 := by
  unfold parseConcurrency at h
  by_cases he : goTrimSpace value = ""
  · rw [if_pos he] at h
    injection h with h'
    subst h'
    intro kv hkv
    cases hkv
  · rw [if_neg he] at h
    exact parseConcurrencyParts_ok_values _ [] m (by intro kv hkv; cases hkv) h

lemma parseConcurrencyParts_error_of_bad :
    ∀ (parts : List String) (acc : List (String × Int)),
      (∃ p ∈ parts, BadPart p) →
      ∃ e, parseConcurrencyParts parts acc = Except.error e := by
  intro parts
  induction parts with
  | nil =>
    intro acc h
    obtain ⟨p, hp, _⟩ := h
    cases hp
  | cons part rest ih =>
    intro acc h
    simp only [parseConcurrencyParts]
    split
    · exact ⟨_, rfl⟩
    · rename_i pr n numProcs hpp
      refine ih (mapInsert acc n numProcs) ?_
      obtain ⟨p, hp, hbad⟩ := h
      rcases List.mem_cons.mp hp with hph | hpt
      · exfalso
        subst hph
        obtain ⟨e, he⟩ := parsePart_error_of_bad hbad
        rw [he] at hpp
        exact Except.noConfusion hpp
      · exact ⟨p, hpt, hbad⟩

/-- C8: parseConcurrency returns an error for every spec string containing
a comma-separated part with no separator, an empty name, an empty value, or
a non-integer value; in that case runStart takes the fatal configuration
path before any process is started (no replica list is produced); and a
spec that is empty or all whitespace succeeds with an empty mapping. -/
theorem parseConcurrency_malformed_fatal (value w : String) (part : String)
    (flagPort : Int) (entries : List ProcfileEntry) (env : List (String × String))
    (args : List String)
    (hne : goTrimSpace value ≠ "") (hp : part ∈ goSplit (',') value)
    (hbad : BadPart part) (hw : goTrimSpace w = "") :
    (∃ e, parseConcurrency value = Except.error e) ∧
    (∃ e, runStart flagPort value entries env args = Except.error e) ∧
    parseConcurrency w = Except.ok [] := by
  have herr : ∃ e, parseConcurrency value = Except.error e := by
    unfold parseConcurrency
    rw [if_neg hne]
    exact parseConcurrencyParts_error_of_bad _ [] ⟨part, hp, hbad⟩
  refine ⟨herr, ?_, ?_⟩
  · obtain ⟨e, he⟩ := herr
    refine ⟨e, ?_⟩
    unfold runStart
    rw [he]
  · unfold parseConcurrency
    rw [if_pos hw]

/-- Witness for C8 at the concrete malformed spec named by the claim. -/
theorem parseConcurrency_malformed_fatal_witness :
    (parseConcurrency ("web=,api=2")).toOption = none ∧
    (runStart 5000 ("web=,api=2") [] [] []).toOption = none ∧
    parseConcurrency (" ") = Except.ok [] := by
  have h := parseConcurrency_malformed_fatal ("web=,api=2") (" ") ("web=")
    5000 [] [] [] (by decide) (by decide) (Or.inr (Or.inl rfl)) rfl
  obtain ⟨⟨e1, he1⟩, ⟨e2, he2⟩, h3⟩ := h
  refine ⟨?_, ?_, h3⟩
  · rw [he1]; rfl
  · rw [he2]; rfl

/-- C9 counterexample: the claim says a negative replica count value such
as web=-3 causes a parse failure, but parseConcurrency accepts it and
returns the negative value in the mapping. -/
theorem parseConcurrency_negative_accepted :
    parseConcurrency ("web=-3") = Except.ok [("web", -3)] ∧ (-3 : Int) < 0 :=
  ⟨rfl, by decide⟩

/-- C9 amended: every value in a mapping returned successfully by
parseConcurrency lies in the signed 16-bit range, negative values
included; in particular web=-3 parses successfully to -3. -/
theorem parseConcurrency_values_int16_bounded (value : String)
    (m : List (String × Int)) (h : parseConcurrency value = Except.ok m) :
    (∀ kv ∈ m, -32768 ≤ kv.2 ∧ kv.2 ≤ 32767) ∧
    parseConcurrency ("web=-3") = Except.ok [("web", -3)] :=
  ⟨parseConcurrency_ok_values h, rfl⟩

/-- Witness for the amended C9 at the concrete negative-count spec. -/
theorem parseConcurrency_values_int16_bounded_witness :
    (-32768 ≤ (-3 : Int) ∧ (-3 : Int) ≤ 32767) ∧
    parseConcurrency ("web=-3") = Except.ok [("web", -3)] :=
  ⟨(parseConcurrency_values_int16_bounded ("web=-3") [("web", -3)] rfl).1
      ("web", -3) (by simp),
   (parseConcurrency_values_int16_bounded ("web=-3") [("web", -3)] rfl).2⟩

/-- C10: the replica-count value is parsed with a signed 16-bit bound: a
base-10 integer value is accepted exactly when it lies in the range -32768
to 32767, so web=32768 is a fatal parse error while web=32767 and
web=-32768 parse successfully. -/
theorem parseConcurrency_int16_bound (s : String) (i : Int)
    (h : goParseIntBase10 s = some i) :
    goParseInt16 s = (if -32768 ≤ i ∧ i ≤ 32767 then some i else none) ∧
    (∃ e, parseConcurrency ("web=32768") = Except.error e) ∧
    parseConcurrency ("web=32767") = Except.ok [("web", 32767)] ∧
    parseConcurrency ("web=-32768") = Except.ok [("web", -32768)] := by
  refine ⟨?_, ⟨_, rfl⟩, rfl, rfl⟩
  unfold goParseInt16
  rw [h]
  show (if i < -32768 ∨ 32767 < i then none else some i) =
    (if -32768 ≤ i ∧ i ≤ 32767 then some i else none)
  by_cases hr : i < -32768 ∨ 32767 < i
  · rw [if_pos hr, if_neg (by omega)]
  · rw [if_neg hr, if_pos (by omega)]

/-- Witness for C10 at the out-of-range value named by the claim. -/
theorem parseConcurrency_int16_bound_witness :
    goParseInt16 ("32768") =
      (if -32768 ≤ (32768 : Int) ∧ (32768 : Int) ≤ 32767 then some 32768 else none) ∧
    parseConcurrency ("web=32767") = Except.ok [("web", 32767)] :=
  ⟨(parseConcurrency_int16_bound ("32768") 32768 rfl).1,
   (parseConcurrency_int16_bound ("32768") 32768 rfl).2.2.1⟩

/-- C2 counterexample: with concurrency spec web=2,worker=1 over templates
web then worker and base port 5000, the code assigns web.2 port 5000 (the
port is keyed by the template index), not port 5100 as the claim states,
so the claimed replica list differs from the produced one. -/
theorem runStart_example_counterexample :
    (runStart 5000 ("web=2,worker=1")
        [{ name := "web", command := "./web" },
         { name := "worker", command := "./worker" }] [] []).map
      (fun rs => rs.map (fun r => (r.procName, r.port))) =
      Except.ok [("web.1", 5000), ("web.2", 5000), ("worker.1", 5100)] ∧
    ([("web.1", (5000 : Int)), ("web.2", 5000), ("worker.1", 5100)] ≠
      [("web.1", 5000), ("web.2", 5100), ("worker.1", 5100)]) :=
  ⟨rfl, by decide⟩

/-- C2 amended: the same configuration produces exactly web.1 with port
5000, web.2 with port 5000, and worker.1 with port 5100, each with a PORT
environment variable and a start announcement carrying its assigned port. -/
theorem runStart_example_replicas :
    (runStart 5000 ("web=2,worker=1")
        [{ name := "web", command := "./web" },
         { name := "worker", command := "./worker" }] [] []).map
      (fun rs => rs.map (fun r =>
        (r.procName, r.port, mapLookup r.env ("PORT"), r.announce))) =
      Except.ok
        [("web.1", 5000, some ("5000"), "starting web.1 on port 5000"),
         ("web.2", 5000, some ("5000"), "starting web.2 on port 5000"),
         ("worker.1", 5100, some ("5100"), "starting worker.1 on port 5100")] :=
  rfl

/-- C3: for every replica key the started process gets port
basePort + templateIndex * 100, independent of the replica index, display
name templateName dot replicaIndex plus one, a PORT environment variable
equal to the assigned port, and an announcement carrying name and port. -/
theorem startProcess_port_and_name (flagPort : Int) (idx procNum : Nat)
    (proc : ProcfileEntry) (env : List (String × String)) :
    (startProcessMeta flagPort idx procNum proc env).port =
      flagPort + (idx : Int) * 100 ∧
    (startProcessMeta flagPort idx procNum proc env).port =
      (startProcessMeta flagPort idx 0 proc env).port ∧
    (startProcessMeta flagPort idx procNum proc env).procName =
      proc.name ++ "." ++ toString (procNum + 1) ∧
    mapLookup (startProcessMeta flagPort idx procNum proc env).env ("PORT") =
      some (toString (flagPort + (idx : Int) * 100)) ∧
    (startProcessMeta flagPort idx procNum proc env).announce =
      "starting " ++ (startProcessMeta flagPort idx procNum proc env).procName ++
        " on port " ++
        toString ((startProcessMeta flagPort idx procNum proc env).port) :=
  ⟨rfl, rfl, rfl, mapLookup_mapInsert_self env ("PORT")
      (toString (flagPort + (idx : Int) * 100)), rfl⟩

/-- C4: with the restart flag disabled, a coordinator whose process exits
naturally before the graceful barrier trips calls SignalShutdown and then
completes after reaping its child; SignalShutdown trips the graceful
barrier from the initial state and the barrier stays tripped, and any
coordinator that subsequently observes the barrier runs to completion,
reaping its child last. -/
theorem restart_disabled_exit_teardown (osSig osSig2 restart2 : Bool)
    (procName name2 : String) (port port2 : Int) (rest : List Outcome)
    (f : ForegoState) (g : GraceEvent) :
    startProcessTrace false osSig procName port (Outcome.childExitFirst :: rest) =
      [Action.start procName port, Action.signalShutdown, Action.reapChild] ∧
    (SignalShutdown foregoInit).teardown = true ∧
    (f.teardown = true → (SignalShutdown f).teardown = true) ∧
    (startProcessTrace restart2 osSig2 name2 port2
        [Outcome.teardownFirst g]).getLast? = some Action.reapChild := by
  refine ⟨rfl, rfl, ?_, ?_⟩
  · intro hf
    unfold SignalShutdown
    by_cases hd : f.shutdownDone
    · rw [if_pos hd]; exact hf
    · rw [if_neg hd]
  · cases osSig2 <;> cases g <;> rfl

/-- C5: with the restart flag enabled, a coordinator whose process exits
naturally relaunches the same replica key: the trace starts a new process
with the identical display name and identical port and continues as a fresh
coordination of the remaining outcomes, the old goroutine reaping its child
afterwards; one exit yields exactly two starts of the same name and port,
and no step of this path emits SignalShutdown. -/
theorem restart_enabled_relaunch (osSig : Bool) (procName : String) (port : Int)
    (rest : List Outcome) :
    startProcessTrace true osSig procName port (Outcome.childExitFirst :: rest) =
      Action.start procName port ::
        (startProcessTrace true osSig procName port rest ++ [Action.reapChild]) ∧
    startProcessTrace true osSig procName port [Outcome.childExitFirst] =
      [Action.start procName port, Action.start procName port,
        Action.reapChild] ∧
    (Action.signalShutdown ∈
        startProcessTrace true osSig procName port (Outcome.childExitFirst :: rest) ↔
      Action.signalShutdown ∈ startProcessTrace true osSig procName port rest) := by
  refine ⟨rfl, rfl, ?_⟩
  rw [startProcessTrace]
  simp

/-- C6: a coordinator that has observed the graceful barrier and sent the
graceful terminate signal sends exactly one force-kill when the fixed
3-second grace timer elapses or when the urgent barrier trips, whichever
comes first, and sends none when the process exits on its own first; the
first interrupt trips only the graceful barrier and a second interrupt
trips the urgent barrier. -/
theorem graceful_stop_escalation (flagRestart : Bool) (procName : String)
    (port : Int) (g : GraceEvent) :
    startProcessTrace flagRestart true procName port [Outcome.teardownFirst g] =
      [Action.start procName port, Action.sendSigTerm procName] ++
        (if g = GraceEvent.childExit then [] else [Action.forceKill procName]) ++
        [Action.reapChild] ∧
    countForceKills (startProcessTrace flagRestart true procName port
        [Outcome.teardownFirst g]) =
      (if g = GraceEvent.childExit then 0 else 1) ∧
    shutdownGraceTimeSeconds = 3 ∧
    (handleInterrupt (monitorInit foregoInit)).forego.teardown = true ∧
    (handleInterrupt (monitorInit foregoInit)).forego.teardownNow = false ∧
    (handleInterrupt (handleInterrupt (monitorInit foregoInit))).forego.teardownNow
      = true := by
  refine ⟨?_, ?_, rfl, rfl, rfl, rfl⟩ <;> cases g <;> rfl

/-- C7: SignalShutdown trips the graceful barrier exactly once: it is
idempotent, n calls for any positive n have the same effect as one, the
barrier is never untripped by a call, and the first call from the initial
state trips it. -/
theorem signalShutdown_idempotent (f : ForegoState) (n : Nat) (hn : 1 ≤ n) :
    SignalShutdown (SignalShutdown f) = SignalShutdown f ∧
    SignalShutdown^[n] f = SignalShutdown f ∧
    (f.teardown = true → (SignalShutdown f).teardown = true) ∧
    (SignalShutdown foregoInit).teardown = true := by
  have hid : ∀ g : ForegoState, SignalShutdown (SignalShutdown g) = SignalShutdown g := by
    intro g
    unfold SignalShutdown
    by_cases hd : g.shutdownDone
    · rw [if_pos hd, if_pos hd]
    · rw [if_neg hd, if_pos rfl]
  have hiter : ∀ k : Nat, SignalShutdown^[k + 1] f = SignalShutdown f := by
    intro k
    induction k with
    | zero => rfl
    | succ k ih => rw [Function.iterate_succ_apply', ih, hid]
  obtain ⟨k, rfl⟩ : ∃ k, n = k + 1 := ⟨n - 1, by omega⟩
  refine ⟨hid f, hiter k, ?_, rfl⟩
  intro hf
  unfold SignalShutdown
  by_cases hd : f.shutdownDone
  · rw [if_pos hd]; exact hf
  · rw [if_neg hd]

/-- Witness for C7 with two calls from the initial state. -/
theorem signalShutdown_idempotent_witness :
    SignalShutdown (SignalShutdown foregoInit) = SignalShutdown foregoInit ∧
    SignalShutdown^[2] foregoInit = SignalShutdown foregoInit ∧
    (SignalShutdown foregoInit).teardown = true :=
  ⟨(signalShutdown_idempotent foregoInit 2 (by decide)).1,
   (signalShutdown_idempotent foregoInit 2 (by decide)).2.1,
   (signalShutdown_idempotent foregoInit 2 (by decide)).2.2.2⟩

lemma replicasForEntry_nofilter_length (flagPort : Int)
    (env : List (String × String)) (idx : Nat) (proc : ProcfileEntry)
    (numProcs : Nat) :
    (replicasForEntry flagPort env ("") idx proc numProcs).length = numProcs := by
  unfold replicasForEntry
  have hall : ∀ m : List Nat,
      (m.filterMap (fun i =>
        if ("" : String) = "" ∨ ("" : String) = proc.name then
          some (startProcessMeta flagPort idx i proc env)
        else none)).length = m.length := by
    intro m
    induction m with
    | nil => rfl
    | cons a t iht =>
      rw [List.filterMap_cons, if_pos (Or.inl rfl)]
      simp [iht]
  rw [hall, List.length_range]

lemma runStartLoop_nofilter_length (flagPort : Int)
    (concurrency : List (String × Int)) (env : List (String × String)) :
    ∀ (entries : List ProcfileEntry) (idx : Nat),
      (runStartLoop flagPort concurrency env ("") idx entries).length =
        requestedTotal entries concurrency := by
  intro entries
  induction entries with
  | nil => intro idx; rfl
  | cons proc rest ih =>
    intro idx
    rw [runStartLoop, List.length_append, replicasForEntry_nofilter_length,
      ih (idx + 1)]
    rfl

/-- C1: with no filter argument, runStart spawns one coordination goroutine
per launched replica and the number launched is exactly the requested total
(the ConcurrencySpec count where present, else 1 per template); the
transition system starts with that many coordinators; and in any reachable
state in which the entry point has returned, every coordination goroutine
has completed and each has reaped its child, so the program never exits
while a child is alive or zombied. -/
theorem runStart_fanout_count_and_clean_exit (flagPort : Int)
    (entries : List ProcfileEntry) (concurrency : List (String × Int))
    (env : List (String × String)) (s : Sys)
    (hr : Reach (requestedTotal entries concurrency) s)
    (hd : s.entryDone = true) :
    (runStartLoop flagPort concurrency env ("") 0 entries).length =
      requestedTotal entries concurrency ∧
    (Sys.start (requestedTotal entries concurrency)).coords.length =
      requestedTotal entries concurrency ∧
    ∀ c ∈ s.coords, c.phase = CPhase.done ∧ c.childExited = true := by
  refine ⟨runStartLoop_nofilter_length flagPort concurrency env entries 0,
    by simp [Sys.start], ?_⟩
  obtain ⟨h1, h2⟩ := sysInv_reach hr
  intro c hc
  have hdone := h2 hd c hc
  exact ⟨hdone, h1 c hc hdone⟩

/-- Witness for C1: a one-replica run driven to completion through child
exit, select fall-through, reap, barrier trip, and entry return. -/
theorem runStart_fanout_count_and_clean_exit_witness :
    (runStartLoop 5000 [] [] ("") 0 [{ name := "web", command := "./web" }]).length
      = requestedTotal [{ name := "web", command := "./web" }] [] ∧
    ({ phase := CPhase.done, childExited := true } : Coord).phase = CPhase.done ∧
    ({ phase := CPhase.done, childExited := true } : Coord).childExited = true := by
  have h0 : Reach 1 (Sys.start 1) := Reach.start
  have h1 := Reach.step h0 (Step.childExit (Sys.start 1) 0 (by decide))
  have h2 := Reach.step h1 (Step.finishSelect _ 0 (by decide) (by decide))
  have h3 := Reach.step h2 (Step.reap _ 0 (by decide) (by decide) (by decide))
  have h4 := Reach.step h3 (Step.trip _)
  have h5 := Reach.step h4 (Step.ret _ (by decide) (by decide))
  have h := runStart_fanout_count_and_clean_exit 5000
    [{ name := "web", command := "./web" }] [] [] _ h5 rfl
  refine ⟨h.1, ?_, ?_⟩
  · exact (h.2.2 { phase := CPhase.done, childExited := true } (by decide)).1
  · exact (h.2.2 { phase := CPhase.done, childExited := true } (by decide)).2


end ForegoStart
